import Mathlib

/-
  Shallow embedding of the mini-task-manager backend (src/backend/server.js).

  The server is a set of Express route handlers over a SQLite database with
  two tables, `users` and `tasks`.  Each handler is a single SQL statement
  (sometimes followed by a fetch-back SELECT) and a JSON response.  We embed
  the database as a pair of row lists plus AUTOINCREMENT counters, and each
  route handler as a pure function from the request data and the database to
  a response and the next database.  `CURRENT_TIMESTAMP` is passed in as an
  explicit `now : Nat` parameter.  Optional JSON body fields are `Option
  String`, with JavaScript truthiness (`!x` is true for a missing field and
  for the empty string) modelled by `truthy` and `x || d` by `jsOr`.
-/

namespace MTM

/-- Row of the `users` table (server.js lines 24-29): id INTEGER PRIMARY KEY
AUTOINCREMENT, email TEXT UNIQUE NOT NULL, password TEXT NOT NULL (a bcrypt
hash), created_at DATETIME. -/
structure User where
  id : Nat
  email : String
  password : String
  created_at : Nat
deriving DecidableEq

/-- Row of the `tasks` table (server.js lines 33-42): id INTEGER PRIMARY KEY
AUTOINCREMENT, title TEXT NOT NULL, description TEXT, status TEXT DEFAULT
«pending», user_id INTEGER NOT NULL, created_at, updated_at DATETIME. -/
structure Task where
  id : Nat
  title : String
  description : String
  status : String
  user_id : Nat
  created_at : Nat
  updated_at : Nat
deriving DecidableEq

/-- The SQLite database: the two tables in insertion order, plus the next
AUTOINCREMENT id for each. -/
structure DB where
  users : List User
  tasks : List Task
  nextUserId : Nat
  nextTaskId : Nat
deriving DecidableEq

/-- The empty string, used as the default for optional text fields. -/
def emptyStr : String := ""

/-- Truthiness of an optional string request-body field: JavaScript `!x` is
true when the field is absent and when it is the empty string. -/
def truthy : Option String → Bool
  | none => false
  | some s => !s.isEmpty

/-- JavaScript `x || d` for an optional string field: the value when present
and non-empty, otherwise the default `d`. -/
def jsOr (o : Option String) (d : String) : String :=
  match o with
  | some s => if s.isEmpty then d else s
  | none => d

/-- Model of bcryptjs: `hash` tags the password (the real hash is one-way and
salted; all the server relies on is that `compare p h` succeeds exactly when
`h` was produced from `p`, which this model preserves). -/
def bcryptHash (p : String) : String := "bcrypt10$" ++ p

/-- Model of `bcrypt.compare(password, storedHash)`. -/
def bcryptCompare (p h : String) : Bool := bcryptHash p == h

/-- Embedding of `SELECT * FROM users WHERE email = ?` via `db.get`: the first
matching row, if any (server.js lines 83 and 136). -/
def findUserByEmail (db : DB) (email : String) : Option User :=
  db.users.find? (fun u => u.email == email)

/-- Embedding of `SELECT * FROM tasks WHERE id = ?` via `db.get`: the first
row with the given id, if any.  This is the fetch-back query of the create
handler (server.js line 205) and of the update handler (line 246); note that
it takes no owner argument — the statement filters by id only. -/
def getTaskById (db : DB) (taskId : Nat) : Option Task :=
  db.tasks.find? (fun t => t.id == taskId)

/-- JSON response of an auth route: HTTP status, the `error` field when
present, and the `user.id` field on success. -/
structure AuthResponse where
  status : Nat
  error : Option String
  userId : Option Nat
deriving DecidableEq

/-- JSON response of a task route: HTTP status, the `error` field when
present, the task body on success of create/update, and the `message` field
of a successful delete. -/
structure TaskResponse where
  status : Nat
  error : Option String
  task : Option Task
  message : Option String
deriving DecidableEq

/-- Handler of POST /auth/signup (server.js lines 68-124). -/
def signup (db : DB) (now : Nat) (email password : Option String) : AuthResponse × DB :=
  if !truthy email || !truthy password then
    ({ status := 400, error := some ("Email and password are required"), userId := none }, db)
  else
    let e := jsOr email emptyStr
    let p := jsOr password emptyStr
    if p.length < 6 then
      ({ status := 400, error := some ("Password must be at least 6 characters"), userId := none },
       db)
    else
      match findUserByEmail db e with
      | some _ => ({ status := 400, error := some ("User already exists"), userId := none }, db)
      | none =>
        let u : User := { id := db.nextUserId, email := e, password := bcryptHash p,
                          created_at := now }
        ({ status := 201, error := none, userId := some u.id },
         { db with users := db.users ++ [u], nextUserId := db.nextUserId + 1 })

/-- Handler of POST /auth/login (server.js lines 127-168).  Read-only. -/
def login (db : DB) (email password : Option String) : AuthResponse :=
  if !truthy email || !truthy password then
    { status := 400, error := some ("Email and password are required"), userId := none }
  else
    match findUserByEmail db (jsOr email emptyStr) with
    | none => { status := 400, error := some ("Invalid credentials"), userId := none }
    | some u =>
      if !bcryptCompare (jsOr password emptyStr) u.password then
        { status := 400, error := some ("Invalid credentials"), userId := none }
      else { status := 200, error := none, userId := some u.id }

/-- Ordering used by `ORDER BY created_at DESC`: `a` comes before `b` when its
creation time is at least that of `b` (newest first). -/
def newerFirst (a b : Task) : Prop := b.created_at ≤ a.created_at

instance : DecidableRel newerFirst := fun a b => Nat.decLe b.created_at a.created_at

instance : IsTotal Task newerFirst := ⟨fun a b => Nat.le_total b.created_at a.created_at⟩

instance : IsTrans Task newerFirst := ⟨fun _ _ _ hab hbc => Nat.le_trans hbc hab⟩

/-- Handler of GET /tasks (server.js lines 172-184): `SELECT * FROM tasks
WHERE user_id = ? ORDER BY created_at DESC`.  The owner filter is part of the
query; rows are returned newest first. -/
def listTasks (db : DB) (owner : Nat) : List Task :=
  List.insertionSort newerFirst (db.tasks.filter (fun t => t.user_id == owner))

/-- The row inserted by `INSERT INTO tasks (title, description, user_id)
VALUES (?, ?, ?)` (server.js lines 195-197): fresh AUTOINCREMENT id, the
given title, `description || ''`, the schema default status, and both
timestamps set to the current time. -/
def newTask (db : DB) (now owner : Nat) (title description : Option String) : Task :=
  { id := db.nextTaskId, title := jsOr title emptyStr,
    description := jsOr description emptyStr, status := "pending", user_id := owner,
    created_at := now, updated_at := now }

/-- Handler of POST /tasks (server.js lines 187-213): validates the title,
runs the INSERT with `description || ''`, then fetches the new row back by id
alone. -/
def createTask (db : DB) (now owner : Nat) (title description : Option String) :
    TaskResponse × DB :=
  if !truthy title then
    ({ status := 400, error := some ("Title is required"), task := none, message := none }, db)
  else
    let t : Task := newTask db now owner title description
    let db2 : DB := { db with tasks := db.tasks ++ [t], nextTaskId := db.nextTaskId + 1 }
    ({ status := 201, error := none, task := getTaskById db2 t.id, message := none }, db2)

/-- The WHERE clause `id = ? AND user_id = ?` shared by the UPDATE and DELETE
statements (server.js lines 232 and 262). -/
def matchesQ (taskId owner : Nat) (t : Task) : Bool :=
  t.id == taskId && t.user_id == owner

/-- Effect of the UPDATE statement (server.js lines 227-233) on one row: a row
matching the WHERE clause gets the new title, description (`|| ''`), status
(`|| 'pending'`) and a refreshed updated_at; any other row is untouched. -/
def applyUpdate (now taskId owner : Nat) (ttl desc stat : String) (t : Task) : Task :=
  if matchesQ taskId owner t then
    { t with title := ttl, description := desc, status := stat, updated_at := now }
  else t

/-- The 404 response shared by the update and delete handlers (server.js
lines 242 and 271); it is the same whether the id does not exist at all or
exists under another account. -/
def taskNotFound : TaskResponse :=
  { status := 404, error := some ("Task not found or unauthorized"), task := none,
    message := none }

/-- Handler of PUT /tasks/:id (server.js lines 216-254): validates the title,
runs the owner-filtered UPDATE, returns 404 when `this.changes` is zero, and
otherwise fetches the row back by id alone. -/
def updateTask (db : DB) (now owner taskId : Nat) (title description status : Option String) :
    TaskResponse × DB :=
  if !truthy title then
    ({ status := 400, error := some ("Title is required"), task := none, message := none }, db)
  else
    let newTasks := db.tasks.map
      (applyUpdate now taskId owner (jsOr title emptyStr) (jsOr description emptyStr)
        (jsOr status ("pending")))
    let changes := (db.tasks.filter (matchesQ taskId owner)).length
    let db2 : DB := { db with tasks := newTasks }
    if changes == 0 then (taskNotFound, db2)
    else ({ status := 200, error := none, task := getTaskById db2 taskId, message := none }, db2)

/-- Handler of DELETE /tasks/:id (server.js lines 257-277): runs the
owner-filtered DELETE and returns 404 when `this.changes` is zero. -/
def deleteTask (db : DB) (owner taskId : Nat) : TaskResponse × DB :=
  let changes := (db.tasks.filter (matchesQ taskId owner)).length
  let db2 : DB := { db with tasks := db.tasks.filter (fun t => !matchesQ taskId owner t) }
  if changes == 0 then (taskNotFound, db2)
  else ({ status := 200, error := none, task := none, message := some ("Task deleted successfully") },
        db2)

/-- Well-formedness of a database state, guaranteed by the schema: task ids
are distinct (PRIMARY KEY) and below the AUTOINCREMENT counter, and likewise
user emails are distinct (UNIQUE) and user ids below their counter. -/
def WF (db : DB) : Prop :=
  (db.tasks.map Task.id).Nodup ∧ (∀ t ∈ db.tasks, t.id < db.nextTaskId) ∧
  (db.users.map User.email).Nodup ∧ (∀ u ∈ db.users, u.id < db.nextUserId)

instance (db : DB) : Decidable (WF db) := by
  unfold WF; infer_instance

/-- Concrete user used in witnesses: the account from the spec scenario. -/
def user1 : User :=
  { id := 1, email := "a@x.com", password := bcryptHash ("secret1"), created_at := 1 }

/-- Concrete task used in witnesses, owned by `user1`. -/
def task1 : Task :=
  { id := 1, title := "Buy milk", description := "", status := "pending", user_id := 1,
    created_at := 10, updated_at := 10 }

/-- Concrete database with one account and one task. -/
def exDB : DB := { users := [user1], tasks := [task1], nextUserId := 2, nextTaskId := 2 }

/-- The response of POST /auth/login on bad credentials (server.js lines 143
and 149): the same status and the same message in both failure branches. -/
def invalidCredentials : AuthResponse :=
  { status := 400, error := some ("Invalid credentials"), userId := none }

/-- The status-enum invariant claimed by the spec: every persisted task row
has status pending or completed. -/
def statusOK (db : DB) : Prop :=
  ∀ t ∈ db.tasks, t.status = "pending" ∨ t.status = "completed"

instance (db : DB) : Decidable (statusOK db) := by
  unfold statusOK; infer_instance

example : WF exDB := by decide

example : (signup exDB 3 (some ("b@x.com")) (some ("secret2"))).1.status = 201 := by decide

example : (login exDB (some ("a@x.com")) (some ("secret1"))).status = 200 := by decide

example : (login exDB (some ("a@x.com")) (some ("wrongpw"))).error = some ("Invalid credentials") := by
  decide

example : listTasks exDB 1 = [task1] := by decide

example : listTasks exDB 2 = [] := by decide

example : (updateTask exDB 11 2 1 (some ("X")) none none).1 = taskNotFound := by decide

example : (deleteTask exDB 1 1).1.status = 200 := by decide

/-- A string with at least 6 characters is not empty. -/
theorem not_isEmpty_of_six_le {p : String} (hp : 6 ≤ p.length) : p.isEmpty = false := by
  rw [Bool.eq_false_iff]
  intro h
  have hpe : p = "" := (String.isEmpty_iff p).mp h
  subst hpe
  simp [String.length] at hp

/-- Membership in the GET /tasks result is exactly being a row of the owner. -/
theorem mem_listTasks {db : DB} {owner : Nat} {t : Task} :
    t ∈ listTasks db owner ↔ t ∈ db.tasks ∧ t.user_id = owner := by
  rw [listTasks, (List.perm_insertionSort _ _).mem_iff, List.mem_filter]
  simp

/-- A row matches the WHERE clause of UPDATE/DELETE exactly when it has the
given id and owner. -/
theorem matchesQ_eq_true {taskId owner : Nat} {t : Task} :
    matchesQ taskId owner t = true ↔ t.id = taskId ∧ t.user_id = owner := by
  simp [matchesQ]

/-- Two rows of a well-formed table with the same id are equal (PRIMARY KEY). -/
theorem id_inj {db : DB} (hwf : WF db) {a b : Task} (ha : a ∈ db.tasks) (hb : b ∈ db.tasks)
    (h : a.id = b.id) : a = b :=
  List.inj_on_of_nodup_map hwf.1 ha hb h

/-- Fetch-back lemma: appending a row with a fresh id and then selecting by
that id returns the appended row. -/
theorem find?_append_fresh {l : List Task} {t : Task} (h : ∀ u ∈ l, u.id ≠ t.id) :
    (l ++ [t]).find? (fun u => u.id == t.id) = some t := by
  rw [List.find?_append]
  have h1 : l.find? (fun u => u.id == t.id) = none := by
    rw [List.find?_eq_none]
    intro u hu
    simpa using h u hu
  rw [h1]
  simp

/-- Computation lemma: create with a falsy title is rejected and changes
nothing. -/
theorem createTask_neg (db : DB) (now owner : Nat) (title desc : Option String)
    (hT : truthy title = false) :
    createTask db now owner title desc =
      ({ status := 400, error := some ("Title is required"), task := none, message := none },
       db) := by
  unfold createTask
  rw [if_pos (by simp [hT])]

/-- Computation lemma: create with a truthy title appends the new row,
increments the id counter, and fetches the row back by id. -/
theorem createTask_pos (db : DB) (now owner : Nat) (title desc : Option String)
    (hT : truthy title = true) :
    createTask db now owner title desc =
      ({ status := 201, error := none,
         task := getTaskById
           ({ db with
              tasks := db.tasks ++ [newTask db now owner title desc]
              nextTaskId := db.nextTaskId + 1 }) ((newTask db now owner title desc).id),
         message := none },
       { db with
         tasks := db.tasks ++ [newTask db now owner title desc]
         nextTaskId := db.nextTaskId + 1 }) := by
  unfold createTask
  rw [if_neg (by simp [hT])]

/-- Computation lemma: update with a falsy title is rejected and changes
nothing. -/
theorem updateTask_neg (db : DB) (now owner taskId : Nat) (title desc stat : Option String)
    (hT : truthy title = false) :
    updateTask db now owner taskId title desc stat =
      ({ status := 400, error := some ("Title is required"), task := none, message := none },
       db) := by
  unfold updateTask
  rw [if_pos (by simp [hT])]

/-- Computation lemma: with a truthy title the resulting database is always
the one produced by the mapped UPDATE statement, whether or not any row
matched. -/
theorem updateTask_tasks (db : DB) (now owner taskId : Nat) (title desc stat : Option String)
    (hT : truthy title = true) :
    (updateTask db now owner taskId title desc stat).2 =
      { db with tasks := db.tasks.map (applyUpdate now taskId owner (jsOr title emptyStr)
          (jsOr desc emptyStr) (jsOr stat ("pending"))) } := by
  unfold updateTask
  rw [if_neg (by simp [hT])]
  dsimp only
  split <;> rfl

/-- Computation lemma: update with a truthy title and no matching row
responds 404. -/
theorem updateTask_404 (db : DB) (now owner taskId : Nat) (title desc stat : Option String)
    (hT : truthy title = true)
    (hc : (db.tasks.filter (matchesQ taskId owner)).length = 0) :
    (updateTask db now owner taskId title desc stat).1 = taskNotFound := by
  unfold updateTask
  rw [if_neg (by simp [hT])]
  dsimp only
  rw [if_pos (by simp [hc])]

/-- Computation lemma: update with a truthy title and a matching row applies
the UPDATE statement and fetches the row back by id. -/
theorem updateTask_200 (db : DB) (now owner taskId : Nat) (title desc stat : Option String)
    (hT : truthy title = true)
    (hc : (db.tasks.filter (matchesQ taskId owner)).length ≠ 0) :
    updateTask db now owner taskId title desc stat =
      ({ status := 200, error := none,
         task := getTaskById
           ({ db with tasks := db.tasks.map (applyUpdate now taskId owner (jsOr title emptyStr)
               (jsOr desc emptyStr) (jsOr stat ("pending"))) }) taskId,
         message := none },
       { db with tasks := db.tasks.map (applyUpdate now taskId owner (jsOr title emptyStr)
           (jsOr desc emptyStr) (jsOr stat ("pending"))) }) := by
  unfold updateTask
  rw [if_neg (by simp [hT])]
  dsimp only
  rw [if_neg (by simp [hc])]

/-- An update that responded 200 had a truthy title and a matching row. -/
theorem updateTask_success (db : DB) (now owner taskId : Nat) (title desc stat : Option String)
    (hs : (updateTask db now owner taskId title desc stat).1.status = 200) :
    truthy title = true ∧ (db.tasks.filter (matchesQ taskId owner)).length ≠ 0 := by
  by_cases hT : truthy title = true
  · by_cases hc : (db.tasks.filter (matchesQ taskId owner)).length = 0
    · rw [updateTask_404 db now owner taskId title desc stat hT hc] at hs
      simp [taskNotFound] at hs
    · exact ⟨hT, hc⟩
  · have hT2 : truthy title = false := by simpa using hT
    rw [updateTask_neg db now owner taskId title desc stat hT2] at hs
    simp at hs

/-- Computation lemma: delete always leaves the table filtered by the negated
WHERE clause (a no-op when nothing matches). -/
theorem deleteTask_tasks (db : DB) (owner taskId : Nat) :
    (deleteTask db owner taskId).2 =
      { db with tasks := db.tasks.filter (fun t => !matchesQ taskId owner t) } := by
  unfold deleteTask
  dsimp only
  split <;> rfl

/-- Under the PRIMARY KEY invariant, at most one row matches the UPDATE and
DELETE WHERE clause. -/
theorem length_filter_matchesQ_le_one {db : DB} (hwf : WF db) (taskId owner : Nat) :
    (db.tasks.filter (matchesQ taskId owner)).length ≤ 1 := by
  rcases hfl : db.tasks.filter (matchesQ taskId owner) with _ | ⟨a, _ | ⟨b, r⟩⟩
  · simp
  · simp
  · exfalso
    have hnd : ((a :: b :: r).map Task.id).Nodup := by
      rw [← hfl]
      exact List.Nodup.sublist ((List.filter_sublist _).map _) hwf.1
    have ha : a ∈ db.tasks.filter (matchesQ taskId owner) := by rw [hfl]; simp
    have hb : b ∈ db.tasks.filter (matchesQ taskId owner) := by rw [hfl]; simp
    have ha2 : a.id = taskId := (matchesQ_eq_true.mp (List.mem_filter.mp ha).2).1
    have hb2 : b.id = taskId := (matchesQ_eq_true.mp (List.mem_filter.mp hb).2).1
    simp [ha2, hb2] at hnd

/-- C7: a signup request whose password is shorter than 6 characters fails
with HTTP 400 (either the missing-field or the length validation message) and
leaves the database unchanged: no account row is created. -/
theorem C7_short_password (db : DB) (now : Nat) (email : Option String) (p : String)
    (hp : p.length < 6) :
    (signup db now email (some p)).1.status = 400 ∧ (signup db now email (some p)).2 = db := by
  unfold signup
  by_cases he : truthy email = true
  · by_cases hpe : p.isEmpty = true
    · simp [truthy, he, hpe]
    · have ht : truthy (some p) = true := by simp [truthy, hpe]
      have hj : jsOr (some p) emptyStr = p := by
        simp [jsOr, hpe]
      simp [he, ht, hj, hp]
  · have he2 : truthy email = false := by simpa using he
    simp [he2]

/-- Witness for C7 at a concrete database and request. -/
theorem C7_short_password_witness :
    (signup exDB 0 (some ("b@x.com")) (some ("abc"))).1.status = 400 ∧
    (signup exDB 0 (some ("b@x.com")) (some ("abc"))).2 = exDB :=
  C7_short_password exDB 0 (some ("b@x.com")) ("abc") (by decide)

/-- C8: for a login request with both fields present (non-empty), the
unknown-email failure and the wrong-password failure produce literally the
same response: HTTP 400 with message Invalid credentials. -/
theorem C8_login_indistinguishable (db : DB) (e p : String)
    (he : e.isEmpty = false) (hp : p.isEmpty = false) :
    (findUserByEmail db e = none → login db (some e) (some p) = invalidCredentials) ∧
    (∀ u, findUserByEmail db e = some u → bcryptCompare p u.password = false →
      login db (some e) (some p) = invalidCredentials) := by
  unfold login
  have hje : jsOr (some e) emptyStr = e := by simp [jsOr, he]
  have hjp : jsOr (some p) emptyStr = p := by simp [jsOr, hp]
  constructor
  · intro h
    simp [truthy, he, hp, hje, hjp, h, invalidCredentials]
  · intro u hu hcmp
    simp [truthy, he, hp, hje, hjp, hu, hcmp, invalidCredentials]

/-- Witness for C8: in `exDB`, an unknown email and a wrong password for the
known email produce the identical response. -/
theorem C8_login_indistinguishable_witness :
    login exDB (some ("b@x.com")) (some ("secret1")) = invalidCredentials ∧
    login exDB (some ("a@x.com")) (some ("wrongpw")) = invalidCredentials :=
  ⟨(C8_login_indistinguishable exDB ("b@x.com") ("secret1") (by decide) (by decide)).1
      (by decide),
   (C8_login_indistinguishable exDB ("a@x.com") ("wrongpw") (by decide) (by decide)).2
      user1 (by decide) (by decide)⟩

/-- C9: GET /tasks returns exactly the rows whose user_id is the
authenticated owner (a permutation of the owner filter of the table, hence
membership is equivalent to being an owner row), sorted newest first by
created_at, and is empty when the owner has no rows. -/
theorem C9_list_tasks (db : DB) (owner : Nat) :
    (listTasks db owner).Perm (db.tasks.filter (fun t => t.user_id == owner)) ∧
    List.Sorted newerFirst (listTasks db owner) ∧
    (∀ t, t ∈ listTasks db owner ↔ t ∈ db.tasks ∧ t.user_id = owner) ∧
    (db.tasks.filter (fun t => t.user_id == owner) = [] → listTasks db owner = []) := by
  refine ⟨List.perm_insertionSort _ _, List.sorted_insertionSort _ _, ?_, ?_⟩
  · intro t
    rw [listTasks, (List.perm_insertionSort _ _).mem_iff, List.mem_filter]
    simp
  · intro h
    rw [listTasks, h, List.insertionSort]

/-- Witness for C9: an owner with no rows gets the empty list. -/
theorem C9_list_tasks_witness : listTasks exDB 2 = [] :=
  (C9_list_tasks exDB 2).2.2.2 (by decide)

/-- C6: with a fresh email and valid credentials, the first signup succeeds
(201); signing up again with the same email fails with the conflict error
(HTTP 400, message User already exists), changes nothing, and exactly one
account row with that email exists afterwards. -/
theorem C6_duplicate_signup (db : DB) (n1 n2 : Nat) (e p p2 : String)
    (he : e.isEmpty = false) (hp : 6 ≤ p.length) (hp2 : 6 ≤ p2.length)
    (hfresh : findUserByEmail db e = none) :
    (signup db n1 (some e) (some p)).1.status = 201 ∧
    (signup (signup db n1 (some e) (some p)).2 n2 (some e) (some p2)).1 =
      { status := 400, error := some ("User already exists"), userId := none } ∧
    (signup (signup db n1 (some e) (some p)).2 n2 (some e) (some p2)).2 =
      (signup db n1 (some e) (some p)).2 ∧
    ((signup (signup db n1 (some e) (some p)).2 n2 (some e) (some p2)).2.users.filter
        (fun u => u.email == e)).length = 1 := by
  have hpe : p.isEmpty = false := not_isEmpty_of_six_le hp
  have hpe2 : p2.isEmpty = false := not_isEmpty_of_six_le hp2
  have hje : jsOr (some e) emptyStr = e := by simp [jsOr, he]
  have hjp : jsOr (some p) emptyStr = p := by simp [jsOr, hpe]
  have hjp2 : jsOr (some p2) emptyStr = p2 := by simp [jsOr, hpe2]
  have hlen : ¬p.length < 6 := by omega
  have hlen2 : ¬p2.length < 6 := by omega
  have h1 : signup db n1 (some e) (some p) =
      ({ status := 201, error := none, userId := some db.nextUserId },
       { db with
          users := db.users ++
            [{ id := db.nextUserId, email := e, password := bcryptHash p, created_at := n1 }],
          nextUserId := db.nextUserId + 1 }) := by
    unfold signup
    simp [truthy, he, hpe, hje, hjp, hlen, hfresh]
  rw [h1]
  have hfind : findUserByEmail
      { db with
        users := db.users ++
          [{ id := db.nextUserId, email := e, password := bcryptHash p, created_at := n1 }],
        nextUserId := db.nextUserId + 1 } e =
      some { id := db.nextUserId, email := e, password := bcryptHash p, created_at := n1 } := by
    unfold findUserByEmail at hfresh ⊢
    simp [List.find?_append, hfresh]
  have h2 : signup
      { db with
        users := db.users ++
          [{ id := db.nextUserId, email := e, password := bcryptHash p, created_at := n1 }],
        nextUserId := db.nextUserId + 1 } n2 (some e) (some p2) =
      ({ status := 400, error := some ("User already exists"), userId := none },
       { db with
          users := db.users ++
            [{ id := db.nextUserId, email := e, password := bcryptHash p, created_at := n1 }],
          nextUserId := db.nextUserId + 1 }) := by
    unfold signup
    simp [truthy, he, hpe2, hje, hjp2, hlen2, hfind]
  rw [h2]
  refine ⟨rfl, rfl, rfl, ?_⟩
  have hnil : db.users.filter (fun u => u.email == e) = [] := by
    rw [List.filter_eq_nil_iff]
    intro u hu
    have := (List.find?_eq_none.mp hfresh) u hu
    simpa using this
  simp [List.filter_append, hnil]

/-- Witness for C6 at a concrete database and credentials. -/
theorem C6_duplicate_signup_witness :
    (signup exDB 3 (some ("b@x.com")) (some ("secret2"))).1.status = 201 ∧
    (signup (signup exDB 3 (some ("b@x.com")) (some ("secret2"))).2 4 (some ("b@x.com"))
        (some ("secret3"))).1 =
      { status := 400, error := some ("User already exists"), userId := none } ∧
    (signup (signup exDB 3 (some ("b@x.com")) (some ("secret2"))).2 4 (some ("b@x.com"))
        (some ("secret3"))).2 = (signup exDB 3 (some ("b@x.com")) (some ("secret2"))).2 ∧
    ((signup (signup exDB 3 (some ("b@x.com")) (some ("secret2"))).2 4 (some ("b@x.com"))
        (some ("secret3"))).2.users.filter (fun u => u.email == ("b@x.com"))).length = 1 :=
  C6_duplicate_signup exDB 3 4 ("b@x.com") ("secret2") ("secret3") (by decide) (by decide)
    (by decide) (by decide)

/-- C2: a task owned by account A is invisible to any other account B: B's
update and delete against its id return exactly the 404 response of a
nonexistent id (also produced here for the genuinely nonexistent id
`db.nextTaskId`), both leave the database unchanged, and B's list never
contains the task. -/
theorem C2_cross_account_isolation (db : DB) (now A B : Nat) (t : Task) (ttl : String)
    (d s : Option String) (hwf : WF db) (ht : t ∈ db.tasks) (hA : t.user_id = A)
    (hAB : B ≠ A) (httl : ttl.isEmpty = false) :
    (updateTask db now B t.id (some ttl) d s).1 = taskNotFound ∧
    (updateTask db now B t.id (some ttl) d s).2 = db ∧
    (deleteTask db B t.id).1 = taskNotFound ∧
    (deleteTask db B t.id).2 = db ∧
    t ∉ listTasks db B ∧
    (updateTask db now B db.nextTaskId (some ttl) d s).1 = taskNotFound ∧
    (deleteTask db B db.nextTaskId).1 = taskNotFound := by
  have hm : ∀ r ∈ db.tasks, matchesQ t.id B r = false := by
    intro r hr
    rw [Bool.eq_false_iff]
    intro hmr
    rcases matchesQ_eq_true.mp hmr with ⟨hid, hu⟩
    have hrt : r = t := id_inj hwf hr ht hid
    rw [hrt, hA] at hu
    exact hAB hu.symm
  have hfilter : db.tasks.filter (matchesQ t.id B) = [] := by
    rw [List.filter_eq_nil_iff]
    intro a ha
    simp [hm a ha]
  have hmfresh : ∀ r ∈ db.tasks, matchesQ db.nextTaskId B r = false := by
    intro r hr
    rw [Bool.eq_false_iff]
    intro hmr
    have hid := (matchesQ_eq_true.mp hmr).1
    have := hwf.2.1 r hr
    omega
  have hfilter2 : db.tasks.filter (matchesQ db.nextTaskId B) = [] := by
    rw [List.filter_eq_nil_iff]
    intro a ha
    simp [hmfresh a ha]
  have hmap : ∀ (t2 d2 s2 : String),
      db.tasks.map (applyUpdate now t.id B t2 d2 s2) = db.tasks := by
    intro t2 d2 s2
    have h1 : ∀ a ∈ db.tasks, applyUpdate now t.id B t2 d2 s2 a = id a := by
      intro a ha
      simp [applyUpdate, hm a ha]
    rw [List.map_congr_left h1, List.map_id]
  have hupd : updateTask db now B t.id (some ttl) d s = (taskNotFound, db) := by
    unfold updateTask
    simp [truthy, httl, hfilter, hmap]
  have hkeep : db.tasks.filter (fun r => !matchesQ t.id B r) = db.tasks := by
    rw [List.filter_eq_self]
    intro a ha
    simp [hm a ha]
  have hdel : deleteTask db B t.id = (taskNotFound, db) := by
    unfold deleteTask
    simp [hfilter, hkeep]
  have hnolist : t ∉ listTasks db B := by
    intro hmem
    have := (mem_listTasks.mp hmem).2
    rw [hA] at this
    exact hAB this.symm
  have hupd2 : (updateTask db now B db.nextTaskId (some ttl) d s).1 = taskNotFound := by
    unfold updateTask
    simp [truthy, httl, hfilter2]
  have hdel2 : (deleteTask db B db.nextTaskId).1 = taskNotFound := by
    unfold deleteTask
    simp [hfilter2]
  exact ⟨by rw [hupd], by rw [hupd], by rw [hdel], by rw [hdel], hnolist, hupd2, hdel2⟩

/-- Witness for C2: account 2 cannot see or touch account 1's task in `exDB`. -/
theorem C2_cross_account_isolation_witness :
    (updateTask exDB 11 2 task1.id (some ("X")) none none).1 = taskNotFound ∧
    (updateTask exDB 11 2 task1.id (some ("X")) none none).2 = exDB ∧
    (deleteTask exDB 2 task1.id).1 = taskNotFound ∧
    (deleteTask exDB 2 task1.id).2 = exDB ∧
    task1 ∉ listTasks exDB 2 ∧
    (updateTask exDB 11 2 exDB.nextTaskId (some ("X")) none none).1 = taskNotFound ∧
    (deleteTask exDB 2 exDB.nextTaskId).1 = taskNotFound :=
  C2_cross_account_isolation exDB 11 1 2 task1 ("X") none none (by decide) (by decide)
    (by decide) (by decide) (by decide)

/-- C3 counterexample: the update handler validates only the title, not the
status, so an accepted request can persist a status outside the
pending/completed enum: on `exDB` an update with status weird is accepted
(HTTP 200) and stores that status. -/
theorem C3_counterexample :
    (updateTask exDB 11 1 1 (some ("Buy milk")) none (some ("weird"))).1.status = 200 ∧
    ((updateTask exDB 11 1 1 (some ("Buy milk")) none (some ("weird"))).2.tasks.map
        Task.status) = [("weird")] ∧
    ¬statusOK (updateTask exDB 11 1 1 (some ("Buy milk")) none (some ("weird"))).2 := by
  decide

/-- C3 amended: Create always persists status pending, so it preserves the
enum invariant for every input it accepts; Update persists the
client-supplied status string verbatim (defaulting to pending when the field
is absent or empty), so it preserves the invariant exactly for requests whose
effective status is pending or completed — the code itself does not enforce
the enum. -/
theorem C3_amended (db : DB) (now owner taskId : Nat) (title desc stat : Option String)
    (hdb : statusOK db) :
    statusOK (createTask db now owner title desc).2 ∧
    (jsOr stat ("pending") = "pending" ∨ jsOr stat ("pending") = "completed" →
      statusOK (updateTask db now owner taskId title desc stat).2) := by
  constructor
  · by_cases hT : truthy title = true
    · have hred : (createTask db now owner title desc).2.tasks =
          db.tasks ++ [newTask db now owner title desc] := by
        rw [createTask_pos db now owner title desc hT]
      intro t2 ht2
      rw [hred] at ht2
      rcases List.mem_append.mp ht2 with h | h
      · exact hdb t2 h
      · left
        rw [List.mem_singleton.mp h]
        rfl
    · have hT2 : truthy title = false := by simpa using hT
      have hid : (createTask db now owner title desc).2 = db := by
        rw [createTask_neg db now owner title desc hT2]
      rw [hid]
      exact hdb
  · intro hstat
    by_cases hT : truthy title = true
    · have hred := updateTask_tasks db now owner taskId title desc stat hT
      intro t2 ht2
      rw [hred] at ht2
      rcases List.mem_map.mp ht2 with ⟨t0, ht0, he⟩
      rw [← he]
      unfold applyUpdate
      by_cases hm : matchesQ taskId owner t0 = true
      · rw [if_pos hm]
        exact hstat
      · rw [if_neg hm]
        exact hdb t0 ht0
    · have hT2 : truthy title = false := by simpa using hT
      have hid : (updateTask db now owner taskId title desc stat).2 = db := by
        rw [updateTask_neg db now owner taskId title desc stat hT2]
      rw [hid]
      exact hdb

/-- Witness for the amended C3 at a concrete database and requests. -/
theorem C3_amended_witness :
    statusOK (createTask exDB 5 1 (some ("T")) none).2 ∧
    statusOK (updateTask exDB 5 1 1 (some ("T")) none (some ("completed"))).2 :=
  ⟨(C3_amended exDB 5 1 1 (some ("T")) none (some ("completed")) (by decide)).1,
   (C3_amended exDB 5 1 1 (some ("T")) none (some ("completed")) (by decide)).2 (by decide)⟩

/-- C4: a successful update whose body omits description and status
overwrites the stored row with the defaults: the description becomes the
empty string and the status becomes pending (and updated_at is refreshed);
the previously stored values are not preserved.  Such a row exists after the
update. -/
theorem C4_update_clears_omitted (db : DB) (now owner taskId : Nat) (ttl : String)
    (hs : (updateTask db now owner taskId (some ttl) none none).1.status = 200) :
    (∀ t2 ∈ (updateTask db now owner taskId (some ttl) none none).2.tasks,
        t2.id = taskId → t2.user_id = owner →
        t2.title = ttl ∧ t2.description = "" ∧ t2.status = "pending" ∧ t2.updated_at = now) ∧
    (∃ t2 ∈ (updateTask db now owner taskId (some ttl) none none).2.tasks,
        t2.id = taskId ∧ t2.user_id = owner) := by
  rcases updateTask_success db now owner taskId (some ttl) none none hs with ⟨hT, hc⟩
  have hso : ttl.isEmpty = false := by simpa [truthy] using hT
  have hjt : jsOr (some ttl) emptyStr = ttl := by simp [jsOr, hso]
  have hred : (updateTask db now owner taskId (some ttl) none none).2.tasks =
      db.tasks.map (applyUpdate now taskId owner (jsOr (some ttl) emptyStr)
        (jsOr none emptyStr) (jsOr none ("pending"))) := by
    rw [updateTask_tasks db now owner taskId (some ttl) none none hT]
  constructor
  · intro t2 ht2 hid hu
    rw [hred] at ht2
    rcases List.mem_map.mp ht2 with ⟨t0, ht0, he⟩
    by_cases hm : matchesQ taskId owner t0 = true
    · rw [← he]
      unfold applyUpdate
      rw [if_pos hm]
      exact ⟨by simp [hjt], by simp [jsOr, emptyStr], by simp [jsOr], rfl⟩
    · exfalso
      have he2 : t2 = t0 := by
        rw [← he]
        unfold applyUpdate
        rw [if_neg hm]
      rw [he2] at hid hu
      exact hm (matchesQ_eq_true.mpr ⟨hid, hu⟩)
  · rcases hfl : db.tasks.filter (matchesQ taskId owner) with _ | ⟨a, r⟩
    · exact absurd (by simp [hfl]) hc
    · have hamem : a ∈ db.tasks.filter (matchesQ taskId owner) := by
        rw [hfl]; exact List.mem_cons_self a r
      have haT : a ∈ db.tasks := (List.mem_filter.mp hamem).1
      have ham := matchesQ_eq_true.mp (List.mem_filter.mp hamem).2
      refine ⟨applyUpdate now taskId owner (jsOr (some ttl) emptyStr)
        (jsOr none emptyStr) (jsOr none ("pending")) a, ?_, ?_, ?_⟩
      · rw [hred]
        exact List.mem_map.mpr ⟨a, haT, rfl⟩
      · unfold applyUpdate
        rw [if_pos (matchesQ_eq_true.mpr ham)]
        exact ham.1
      · unfold applyUpdate
        rw [if_pos (matchesQ_eq_true.mpr ham)]
        exact ham.2

/-- Witness for C4: updating `task1` with only a title resets its description
and status. -/
theorem C4_update_clears_omitted_witness :
    (∀ t2 ∈ (updateTask exDB 11 1 1 (some ("T")) none none).2.tasks,
        t2.id = 1 → t2.user_id = 1 →
        t2.title = ("T") ∧ t2.description = "" ∧ t2.status = "pending" ∧
          t2.updated_at = 11) ∧
    (∃ t2 ∈ (updateTask exDB 11 1 1 (some ("T")) none none).2.tasks,
        t2.id = 1 ∧ t2.user_id = 1) :=
  C4_update_clears_omitted exDB 11 1 1 ("T") (by decide)

/-- Fetch-back after INSERT: in a well-formed database the new row's id is
fresh, so selecting it by id returns exactly the inserted row. -/
theorem getTaskById_created (db : DB) (now owner : Nat) (title desc : Option String)
    (hwf : WF db) :
    getTaskById
      ({ db with
         tasks := db.tasks ++ [newTask db now owner title desc]
         nextTaskId := db.nextTaskId + 1 }) ((newTask db now owner title desc).id) =
      some (newTask db now owner title desc) := by
  unfold getTaskById
  apply find?_append_fresh
  intro u hu
  have hlt := hwf.2.1 u hu
  have hid : (newTask db now owner title desc).id = db.nextTaskId := rfl
  rw [hid]
  omega

/-- C5: a create with a non-empty title succeeds with 201 and returns the
persisted row; an immediately following list for the same owner contains
that row, with the same id, title, description and status as returned, the
description defaulting to the empty string when omitted and the status being
pending (create cannot set any other status). -/
theorem C5_create_list_roundtrip (db : DB) (now owner : Nat) (ttl : String)
    (desc : Option String) (hwf : WF db) (httl : ttl.isEmpty = false) :
    (createTask db now owner (some ttl) desc).1.status = 201 ∧
    ∃ t, (createTask db now owner (some ttl) desc).1.task = some t ∧
      t ∈ listTasks (createTask db now owner (some ttl) desc).2 owner ∧
      t.id = db.nextTaskId ∧ t.title = ttl ∧ t.description = jsOr desc emptyStr ∧
      t.status = "pending" ∧ (desc = none → t.description = "") := by
  have hT : truthy (some ttl) = true := by simp [truthy, httl]
  have hec := createTask_pos db now owner (some ttl) desc hT
  refine ⟨by rw [hec], newTask db now owner (some ttl) desc, ?_, ?_, rfl, ?_, rfl, rfl, ?_⟩
  · rw [hec]
    exact getTaskById_created db now owner (some ttl) desc hwf
  · rw [hec]
    apply mem_listTasks.mpr
    exact ⟨List.mem_append.mpr (Or.inr (List.mem_singleton.mpr rfl)), rfl⟩
  · show jsOr (some ttl) emptyStr = ttl
    simp [jsOr, httl]
  · intro h
    rw [h]
    rfl

/-- Witness for C5 at a concrete database and request. -/
theorem C5_create_list_roundtrip_witness :
    (createTask exDB 12 1 (some ("Buy bread")) none).1.status = 201 ∧
    ∃ t, (createTask exDB 12 1 (some ("Buy bread")) none).1.task = some t ∧
      t ∈ listTasks (createTask exDB 12 1 (some ("Buy bread")) none).2 1 ∧
      t.id = exDB.nextTaskId ∧ t.title = ("Buy bread") ∧
      t.description = jsOr none emptyStr ∧ t.status = "pending" ∧
      ((none : Option String) = none → t.description = "") :=
  C5_create_list_roundtrip exDB 12 1 ("Buy bread") none (by decide) (by decide)

/-- C10: frame property of a successful update: the accounts table and both
id counters are unchanged; under the PRIMARY KEY invariant exactly one row
matches the WHERE clause; and row for row the new table keeps every id,
owner and creation time, leaves every non-matching row untouched, and gives
a matching row exactly the new title, description, status and updated_at. -/
theorem C10_update_frame (db : DB) (now owner taskId : Nat) (ttl : String)
    (desc stat : Option String) (hwf : WF db)
    (hs : (updateTask db now owner taskId (some ttl) desc stat).1.status = 200) :
    (updateTask db now owner taskId (some ttl) desc stat).2.users = db.users ∧
    (updateTask db now owner taskId (some ttl) desc stat).2.nextUserId = db.nextUserId ∧
    (updateTask db now owner taskId (some ttl) desc stat).2.nextTaskId = db.nextTaskId ∧
    (db.tasks.filter (matchesQ taskId owner)).length = 1 ∧
    List.Forall₂ (fun r r2 =>
        r2.id = r.id ∧ r2.user_id = r.user_id ∧ r2.created_at = r.created_at ∧
        (matchesQ taskId owner r = false → r2 = r) ∧
        (matchesQ taskId owner r = true →
          r2.title = ttl ∧ r2.description = jsOr desc emptyStr ∧
          r2.status = jsOr stat ("pending") ∧ r2.updated_at = now))
      db.tasks (updateTask db now owner taskId (some ttl) desc stat).2.tasks := by
  rcases updateTask_success db now owner taskId (some ttl) desc stat hs with ⟨hT, hc⟩
  have hso : ttl.isEmpty = false := by simpa [truthy] using hT
  have hjt : jsOr (some ttl) emptyStr = ttl := by simp [jsOr, hso]
  have h2 := updateTask_tasks db now owner taskId (some ttl) desc stat hT
  rw [h2]
  refine ⟨rfl, rfl, rfl, ?_, ?_⟩
  · have hle := length_filter_matchesQ_le_one hwf taskId owner
    omega
  · refine List.forall₂_map_right_iff.mpr (List.forall₂_same.mpr ?_)
    intro r hr
    unfold applyUpdate
    by_cases hm : matchesQ taskId owner r = true
    · rw [if_pos hm]
      exact ⟨rfl, rfl, rfl, fun hf => by simp [hm] at hf,
        fun _ => ⟨hjt, rfl, rfl, rfl⟩⟩
    · rw [if_neg hm]
      have hm2 : matchesQ taskId owner r = false := by simpa using hm
      exact ⟨rfl, rfl, rfl, fun _ => rfl, fun htr => by simp [hm2] at htr⟩

/-- Witness for C10: a successful update of `task1` in `exDB`. -/
theorem C10_update_frame_witness :
    (updateTask exDB 11 1 1 (some ("T")) none none).2.users = exDB.users ∧
    (updateTask exDB 11 1 1 (some ("T")) none none).2.nextUserId = exDB.nextUserId ∧
    (updateTask exDB 11 1 1 (some ("T")) none none).2.nextTaskId = exDB.nextTaskId ∧
    (exDB.tasks.filter (matchesQ 1 1)).length = 1 ∧
    List.Forall₂ (fun r r2 =>
        r2.id = r.id ∧ r2.user_id = r.user_id ∧ r2.created_at = r.created_at ∧
        (matchesQ 1 1 r = false → r2 = r) ∧
        (matchesQ 1 1 r = true →
          r2.title = ("T") ∧ r2.description = jsOr none emptyStr ∧
          r2.status = jsOr none ("pending") ∧ r2.updated_at = 11))
      exDB.tasks (updateTask exDB 11 1 1 (some ("T")) none none).2.tasks :=
  C10_update_frame exDB 11 1 1 ("T") none none (by decide) (by decide)

/-- C1 counterexample: the fetch-back SELECT shared by the create handler
(server.js line 205) and the update handler (line 246) filters by id only,
with no owner condition in the query: executed in `exDB` for task id 1 on
behalf of account 2, it returns account 1's row, so not every read applies
the owner filter at the storage-query level. -/
theorem C1_counterexample : getTaskById exDB 1 = some task1 ∧ task1.user_id ≠ 2 := by
  decide

/-- C1 amended: the list query and the UPDATE and DELETE statements do filter
by owner at the query level, but the fetch-back SELECTs of create and update
filter by id only.  Nevertheless, in the sequential execution of each
handler, every task row the operation returns, inserts, modifies or removes
belongs to the requesting account: the list contains only the owner's rows;
the row returned by create or update has user_id = owner; every row of the
table after create or update is an old row or owned by the owner; and every
row delete removes was owned by the owner. -/
theorem C1_amended (db : DB) (now owner taskId : Nat) (title desc stat : Option String)
    (hwf : WF db) :
    (∀ t ∈ listTasks db owner, t.user_id = owner) ∧
    (∀ t2, (createTask db now owner title desc).1.task = some t2 → t2.user_id = owner) ∧
    (∀ t2 ∈ (createTask db now owner title desc).2.tasks,
        t2 ∈ db.tasks ∨ t2.user_id = owner) ∧
    (∀ t2, (updateTask db now owner taskId title desc stat).1.task = some t2 →
        t2.user_id = owner) ∧
    (∀ t2 ∈ (updateTask db now owner taskId title desc stat).2.tasks,
        t2 ∈ db.tasks ∨ t2.user_id = owner) ∧
    (∀ t2 ∈ db.tasks, t2 ∉ (deleteTask db owner taskId).2.tasks → t2.user_id = owner) := by
  refine ⟨fun t ht => (mem_listTasks.mp ht).2, ?_, ?_, ?_, ?_, ?_⟩
  · intro t2 h
    by_cases hT : truthy title = true
    · rw [createTask_pos db now owner title desc hT] at h
      rw [getTaskById_created db now owner title desc hwf] at h
      cases h
      rfl
    · have hT2 : truthy title = false := by simpa using hT
      rw [createTask_neg db now owner title desc hT2] at h
      cases h
  · intro t2 ht2
    by_cases hT : truthy title = true
    · rw [createTask_pos db now owner title desc hT] at ht2
      rcases List.mem_append.mp ht2 with h | h
      · exact Or.inl h
      · right
        rw [List.mem_singleton.mp h]
        rfl
    · have hT2 : truthy title = false := by simpa using hT
      rw [createTask_neg db now owner title desc hT2] at ht2
      exact Or.inl ht2
  · intro t2 h
    by_cases hT : truthy title = true
    · by_cases hc : (db.tasks.filter (matchesQ taskId owner)).length = 0
      · rw [updateTask_404 db now owner taskId title desc stat hT hc] at h
        cases h
      · rw [updateTask_200 db now owner taskId title desc stat hT hc] at h
        have hp := List.find?_some h
        have hmem := List.mem_of_find?_eq_some h
        rcases List.mem_map.mp hmem with ⟨t0, ht0, he⟩
        by_cases hm : matchesQ taskId owner t0 = true
        · have hu : t2.user_id = t0.user_id := by
            rw [← he]
            unfold applyUpdate
            rw [if_pos hm]
          rw [hu]
          exact (matchesQ_eq_true.mp hm).2
        · exfalso
          have he2 : t2 = t0 := by
            rw [← he]
            unfold applyUpdate
            rw [if_neg hm]
          rcases hfl : db.tasks.filter (matchesQ taskId owner) with _ | ⟨a, r⟩
          · exact hc (by simp [hfl])
          · have hamem : a ∈ db.tasks.filter (matchesQ taskId owner) := by
              rw [hfl]; exact List.mem_cons_self a r
            have haT : a ∈ db.tasks := (List.mem_filter.mp hamem).1
            have ham := matchesQ_eq_true.mp (List.mem_filter.mp hamem).2
            have hid : t0.id = a.id := by
              rw [ham.1, ← he2]
              simpa using hp
            have : t0 = a := id_inj hwf ht0 haT hid
            rw [this] at hm
            exact hm (matchesQ_eq_true.mpr ham)
    · have hT2 : truthy title = false := by simpa using hT
      rw [updateTask_neg db now owner taskId title desc stat hT2] at h
      cases h
  · intro t2 ht2
    by_cases hT : truthy title = true
    · rw [updateTask_tasks db now owner taskId title desc stat hT] at ht2
      rcases List.mem_map.mp ht2 with ⟨t0, ht0, he⟩
      by_cases hm : matchesQ taskId owner t0 = true
      · right
        have hu : t2.user_id = t0.user_id := by
          rw [← he]
          unfold applyUpdate
          rw [if_pos hm]
        rw [hu]
        exact (matchesQ_eq_true.mp hm).2
      · left
        have he2 : t2 = t0 := by
          rw [← he]
          unfold applyUpdate
          rw [if_neg hm]
        rw [he2]
        exact ht0
    · have hT2 : truthy title = false := by simpa using hT
      rw [updateTask_neg db now owner taskId title desc stat hT2] at ht2
      exact Or.inl ht2
  · intro t2 ht2 hnot
    rw [deleteTask_tasks db owner taskId] at hnot
    by_cases hk : matchesQ taskId owner t2 = true
    · exact (matchesQ_eq_true.mp hk).2
    · exfalso
      apply hnot
      apply List.mem_filter.mpr
      exact ⟨ht2, by simp [hk]⟩

/-- Witness for the amended C1: in `exDB`, the single listed row of account 1
is indeed owned by account 1. -/
theorem C1_amended_witness : task1.user_id = 1 :=
  (C1_amended exDB 12 1 1 (some ("T")) none none (by decide)).1 task1 (by decide)

end MTM
